import Mathlib

/-!
# Verification of the IAFD-Ebisu sync-and-approval core

Shallow embedding of the offline-first point-of-sale backend in
`posapp/` (Django): the data model (`models.py`), the device-sync
serializers (`serializers.py`) and the approval views (`views.py`).

Conventions of the embedding:
* Database tables are Lean lists of records; a Django `save()` is an
  in-place update of the matching list entry (`List.map` guarded by the
  row key).  Row order is creation order, matching the way the source
  iterates querysets that carry no explicit ordering beyond insertion.
* `DecimalField(decimal_places=2)` money values (price, totals) are
  embedded as `Int` numbers of cents; the source's absolute tolerance
  `0.01` is the integer `1` in this encoding.
* Timestamps are `Nat`; `timezone.now()` at the moment of a request is
  an explicit `now` parameter.
* Fallible request handlers return a result value next to the new
  state; Django persists every `save()` issued before an early
  `return Response(...)`, so an error result is paired with whatever
  state the handler had already written (there is no `transaction.atomic`
  anywhere in `views.py` / `serializers.py`).
* Database-level uniqueness constraints (`unique_together`) are not
  re-modelled; theorems that need key uniqueness state it as a
  hypothesis.
-/

/-- Actor roles, `UserProfile.ROLE_CHOICES` in `models.py`. -/
inductive Role where
  | admin
  | worker
deriving DecidableEq, Repr, BEq

/-- A row of the `products` table (`Product` in `models.py`).
`localId` is the device-facing integer identity (the model's
`id = PositiveIntegerField()` next to the `server_id` primary key);
`price` and money values are in cents.  The `image` field is omitted:
image attachment is an explicitly best-effort side effect that touches
no field the claims mention. -/
structure ProductRec where
  businessId : Nat
  localId : Nat
  name : String
  description : Option String
  qrCode : Option String
  price : Int
  stock : Int
  updatedAt : Nat
  active : Bool
deriving DecidableEq, Repr

/-- A row of the `sale_items` table (`SaleItem` in `models.py`).
`productLocalId` is the referenced product's device-local id (the
serializers resolve `product_id` from the device against
`Product.local_id`).  `totalPrice` is in cents. -/
structure SaleItemRec where
  productLocalId : Nat
  quantity : Nat
  totalPrice : Int
deriving DecidableEq, Repr

/-- A row of the `sales` table (`Sale` in `models.py`), with its owned
line items inlined (`SaleItem.sale` foreign key).  `createdBy` is the
acting user's id (nullable).  Timestamps of sales are not needed by any
claim and are omitted. -/
structure SaleRec where
  uuid : Nat
  businessId : Nat
  total : Int
  syncedFromDevice : Bool
  active : Bool
  createdBy : Option Nat
  pendingApproval : Bool
  items : List SaleItemRec
deriving DecidableEq, Repr

/-- The durable store: the two mutable tables the claims are about. -/
structure DbState where
  products : List ProductRec
  sales : List SaleRec
deriving DecidableEq, Repr

/-- `Product.objects.get(business_id=…, local_id=…)`:
first row matching the per-business device-local key. -/
def findProduct (ps : List ProductRec) (b lid : Nat) : Option ProductRec :=
  ps.find? fun p => p.businessId == b && p.localId == lid

/-- `Sale.objects.get(uuid=…, business=…)` (no lifecycle filter). -/
def findSale (ss : List SaleRec) (b u : Nat) : Option SaleRec :=
  ss.find? fun s => s.businessId == b && s.uuid == u

/-- `Sale.objects.get(uuid=…, business=…, pending_approval=True,
active=True)` — the lookup used by the approve and reject views. -/
def findPendingSale (ss : List SaleRec) (b u : Nat) : Option SaleRec :=
  ss.find? fun s => s.businessId == b && s.uuid == u && s.pendingApproval && s.active

/-- `product.stock = v; product.save()`: writes the row with key
`(b, lid)`.  `Product.save` always refreshes `updated_at` to
`timezone.now()` (`models.py`, and the field is `auto_now=True`). -/
def setStock (ps : List ProductRec) (b lid : Nat) (v : Int) (now : Nat) : List ProductRec :=
  ps.map fun p =>
    if p.businessId == b && p.localId == lid then
      { p with stock := v, updatedAt := now }
    else p

/-- The stock currently stored for the product keyed `(b, lid)`. -/
def stockOf (st : DbState) (b lid : Nat) : Option Int :=
  (findProduct st.products b lid).map (·.stock)

/-- The `updated_at` currently stored for the product keyed `(b, lid)`. -/
def updatedAtOf (st : DbState) (b lid : Nat) : Option Nat :=
  (findProduct st.products b lid).map (·.updatedAt)

/-! ## Product sync push (`ProductSyncSerializer`, `ProductSyncView`) -/

/-- One record of a product sync push
(`ProductSyncItemSerializer` fields; `id` is the device-local id). -/
structure PushProduct where
  localId : Nat
  name : String
  description : Option String
  qrCode : Option String
  price : Int
  stock : Int
  updatedAt : Nat
  active : Bool
deriving DecidableEq, Repr

/-- Python `(value or '').strip() or None` used for `description`
and `qr_code` in `ProductSyncSerializer.create`. -/
def stripOrNone (v : Option String) : Option String :=
  match v with
  | none => none
  | some t => if t.trim = "" then none else some t.trim

/-- Field validation of `ProductSyncItemSerializer`: `price > 0`
(`validate_price`) and `stock ≥ 0` (`min_value=0`). -/
def productPushValid (it : PushProduct) : Bool :=
  0 < it.price && 0 ≤ it.stock

/-- One iteration of the loop in `ProductSyncSerializer.create`:
`Product.objects.update_or_create(business_id, local_id, defaults=…)`.
The serializer passes the pushed `updated_at` in `defaults`, but
`Product.save` overwrites `self.updated_at = timezone.now()` (and the
field is `auto_now=True`), so the stored timestamp is `now`, not
`it.updatedAt`. -/
def productSyncOne (b now : Nat) (it : PushProduct) (st : DbState) : DbState :=
  match findProduct st.products b it.localId with
  | some _ =>
      { st with products := st.products.map fun p =>
          if p.businessId == b && p.localId == it.localId then
            { p with
                name := it.name
                description := stripOrNone it.description
                qrCode := stripOrNone it.qrCode
                price := it.price
                stock := it.stock
                updatedAt := now
                active := it.active }
          else p }
  | none =>
      { st with products := st.products ++
          [{ businessId := b
             localId := it.localId
             name := it.name
             description := stripOrNone it.description
             qrCode := stripOrNone it.qrCode
             price := it.price
             stock := it.stock
             updatedAt := now
             active := it.active }] }

/-- `ProductSyncView.post`: the serializer validates the whole batch
(`validate_products` rejects an empty list, per-item field validation)
before `create` runs; an invalid batch is a 400 with no state change.
Returns `(success, new state)`. -/
def productSyncPush (b now : Nat) (items : List PushProduct) (st : DbState) :
    Bool × DbState :=
  if !items.isEmpty && items.all productPushValid then
    (true, items.foldl (fun s it => productSyncOne b now it s) st)
  else
    (false, st)

/-! ## Sale sync push (`SaleSyncSerializer`, `SaleSyncView`) -/

/-- One sale record of a sale sync push (`SaleSyncItemSerializer`):
client uuid, total (cents) and its `items_data` line items. -/
structure SyncSale where
  uuid : Nat
  total : Int
  itemsData : List SaleItemRec
deriving DecidableEq, Repr

/-- Validation of one pushed line item:
`SaleItemCreateSerializer.validate_product_id` requires an active
product with this `local_id` in the actor's business; quantity and
total price must be positive (`SaleItem.clean`, enforced by
`full_clean` in `SaleItem.save`, aborts the push before any stock
mutation otherwise). -/
def syncItemValid (st : DbState) (b : Nat) (it : SaleItemRec) : Bool :=
  0 < it.quantity && 0 < it.totalPrice &&
    ((findProduct st.products b it.productLocalId).any fun p => p.active)

/-- Validation of one pushed sale record: `validate_total` requires a
positive total; every line item must validate.  There is no check of
the total against the sum of the items on this sync path. -/
def saleSyncRecordValid (st : DbState) (b : Nat) (sd : SyncSale) : Bool :=
  0 < sd.total && sd.itemsData.all (syncItemValid st b)

/-- The admin-path stock loop at the end of `SaleSyncSerializer.create`:
`for item in sale.items.all(): if p.stock >= item.quantity: p.stock -=
item.quantity; p.save()` — an item whose product lacks stock is
silently skipped, no error is raised. -/
def decStockIfEnough (b now : Nat) : List SaleItemRec → List ProductRec →
    List ProductRec
  | [], ps => ps
  | it :: rest, ps =>
      match findProduct ps b it.productLocalId with
      | some p =>
          if (it.quantity : Int) ≤ p.stock then
            decStockIfEnough b now rest
              (setStock ps b it.productLocalId (p.stock - it.quantity) now)
          else decStockIfEnough b now rest ps
      | none => decStockIfEnough b now rest ps

/-- One iteration of the loop in `SaleSyncSerializer.create`:
`Sale.objects.update_or_create(uuid, business_id, defaults=…)`; only
when the row was newly created are the line items created and, for a
non-worker actor, stock decremented. -/
def saleSyncOne (role : Role) (userId b now : Nat) (sd : SyncSale)
    (st : DbState) : DbState :=
  -- `is_worker = request.user.profile.role == 'worker'` is inlined as
  -- `role == Role.worker` at its two use sites.
  match findSale st.sales b sd.uuid with
  | some _ =>
      -- update branch: the defaults overwrite these fields on the row
      { st with sales := st.sales.map fun s =>
          if s.businessId == b && s.uuid == sd.uuid then
            { s with
                total := sd.total
                syncedFromDevice := true
                active := true
                createdBy := some userId
                pendingApproval := (role == Role.worker) }
          else s }
  | none =>
      { st with
          products :=
            if role == Role.worker then st.products
            else decStockIfEnough b now sd.itemsData st.products
          sales := st.sales ++
            [{ uuid := sd.uuid
               businessId := b
               total := sd.total
               syncedFromDevice := true
               active := true
               createdBy := some userId
               pendingApproval := (role == Role.worker)
               items := sd.itemsData }] }

/-- `SaleSyncView.post`: the serializer validates every record
(`validate_sales` rejects an empty batch) before `create` runs; on
success the view answers 201 `{'success': True, …}`. -/
def saleSyncPush (role : Role) (userId b now : Nat) (sds : List SyncSale)
    (st : DbState) : Bool × DbState :=
  if !sds.isEmpty && sds.all (saleSyncRecordValid st b) then
    (true, sds.foldl (fun s sd => saleSyncOne role userId b now sd s) st)
  else
    (false, st)

/-! ## Direct sale creation validation (`SaleSerializer.validate`) -/

/-- `sum(item['total_price'] for item in items_data)` (cents). -/
def itemsTotalSum (items : List SaleItemRec) : Int :=
  (items.map (·.totalPrice)).sum

/-- `SaleSerializer.validate`: with a non-empty `items_data`, rejects
when `abs(calculated_total - attrs['total']) > 0.01`; the tolerance
`0.01` is one cent here. -/
def saleValidateTotal (total : Int) (itemsData : List SaleItemRec) : Bool :=
  if itemsData.isEmpty then true
  else if 1 < |itemsTotalSum itemsData - total| then false
  else true

/-! ## Approval engine (`views.py`) -/

/-- Outcome of the approval views. -/
inductive ApproveResult where
  | notFound
  | insufficientStock (productName : String)
  | ok
deriving DecidableEq, Repr

/-- The per-item loop of `ApproveSaleView.post` (also the inner loop of
`ApproveAllPendingView.post`): each sufficient item is decremented and
saved immediately; the first insufficient item returns the 400 error
naming the product, with the earlier saves already persisted.  The
`none` case (a dangling item) cannot arise in Django — `SaleItem.product`
is a non-null foreign key — and is mapped to the error stop. -/
def decItems (b now : Nat) : List SaleItemRec → List ProductRec →
    List ProductRec × Option String
  | [], ps => (ps, none)
  | it :: rest, ps =>
      match findProduct ps b it.productLocalId with
      | some p =>
          if (it.quantity : Int) ≤ p.stock then
            decItems b now rest (setStock ps b it.productLocalId (p.stock - it.quantity) now)
          else (ps, some p.name)
      | none => (ps, some "")

/-- `ApproveSaleView.post`: look the sale up with
`pending_approval=True, active=True`; decrement stock item by item; on
an insufficient item answer 400 keeping the decrements already saved;
on success clear `pending_approval` and save the sale. -/
def approveSale (b u now : Nat) (st : DbState) : ApproveResult × DbState :=
  match findPendingSale st.sales b u with
  | none => (.notFound, st)
  | some sale =>
      match decItems b now sale.items st.products with
      | (ps, some nm) => (.insufficientStock nm, { st with products := ps })
      | (ps, none) =>
          (.ok, { st with
              products := ps
              sales := st.sales.map fun s =>
                if s.businessId == b && s.uuid == u then
                  { s with pendingApproval := false }
                else s })

/-- The pending-sale snapshot taken by the bulk views:
`Sale.objects.filter(active=True, business=…, pending_approval=True)`.
The queryset carries no explicit `order_by`, so `Sale.Meta.ordering =
['-created_at']` applies and the snapshot iterates newest-first; rows
here are stored in creation order, so that is the reverse. -/
def pendingSalesOf (st : DbState) (b : Nat) : List SaleRec :=
  (st.sales.filter fun s => s.active && s.businessId == b && s.pendingApproval).reverse

/-- The first loop of `ApproveAllPendingView.post`: sales in snapshot
order, items within each sale as in `decItems`; the first insufficient
item aborts the whole loop keeping every decrement saved so far. -/
def decSalesAll (b now : Nat) : List SaleRec → List ProductRec →
    List ProductRec × Option String
  | [], ps => (ps, none)
  | s :: rest, ps =>
      match decItems b now s.items ps with
      | (ps2, some nm) => (ps2, some nm)
      | (ps2, none) => decSalesAll b now rest ps2

/-- `ApproveAllPendingView.post`: decrement stock over the whole
pending snapshot; a 400 on the first insufficient item leaves every
`pending_approval` flag untouched but keeps the decrements already
saved; on success a second loop clears `pending_approval` of the
snapshot's sales. -/
def approveAllPending (b now : Nat) (st : DbState) : ApproveResult × DbState :=
  match decSalesAll b now (pendingSalesOf st b) st.products with
  | (ps, some nm) => (.insufficientStock nm, { st with products := ps })
  | (ps, none) =>
      (.ok, { st with
          products := ps
          sales := st.sales.map fun s =>
            if s.active && s.businessId == b && s.pendingApproval then
              { s with pendingApproval := false }
            else s })

/-- `RejectSaleView.post`: look the sale up with
`pending_approval=True, active=True`; soft-delete it (`active=False`),
touching no stock. -/
def rejectSale (b u : Nat) (st : DbState) : Bool × DbState :=
  match findPendingSale st.sales b u with
  | none => (false, st)
  | some _ =>
      (true, { st with sales := st.sales.map fun s =>
          if s.businessId == b && s.uuid == u then { s with active := false } else s })

/-- `RejectAllPendingView.post`: soft-delete every active pending sale
of the business, touching no stock. -/
def rejectAllPending (b : Nat) (st : DbState) : DbState :=
  { st with sales := st.sales.map fun s =>
      if s.active && s.businessId == b && s.pendingApproval then
        { s with active := false }
      else s }

/-- Visibility filter of `SaleViewSet.get_queryset`: business-scoped,
`pending_approval=False` always, inactive rows only for an admin who
passed `include_inactive=true`, workers only their own sales. -/
def saleVisible (role : Role) (userId b : Nat) (includeInactive : Bool)
    (s : SaleRec) : Bool :=
  s.businessId == b && !s.pendingApproval &&
    (if includeInactive && role == Role.admin then true else s.active) &&
    (if role == Role.worker then s.createdBy == some userId else true)

/-- The stock-restore loop of `SaleViewSet.destroy`:
`product.stock += item.quantity; product.save()` for every item,
unconditionally. -/
def incItems (b now : Nat) : List SaleItemRec → List ProductRec →
    List ProductRec
  | [], ps => ps
  | it :: rest, ps =>
      match findProduct ps b it.productLocalId with
      | some p =>
          incItems b now rest (setStock ps b it.productLocalId (p.stock + it.quantity) now)
      | none => incItems b now rest ps

/-- `SaleViewSet.destroy`: on the sale found through the visibility
filter, restore stock for every item, then soft-delete the sale. -/
def destroySale (role : Role) (userId b u now : Nat) (includeInactive : Bool)
    (st : DbState) : DbState :=
  match st.sales.find? fun s =>
      s.uuid == u && saleVisible role userId b includeInactive s with
  | none => st
  | some sale =>
      { st with
          products := incItems b now sale.items st.products
          sales := st.sales.map fun s =>
            if s.businessId == b && s.uuid == u then { s with active := false } else s }

/-- Outcome of `SaleViewSet.reactivate`. -/
inductive ReactivateResult where
  | forbidden
  | notFound
  | alreadyActive
  | reactivated
deriving DecidableEq, Repr

/-- `SaleViewSet.reactivate`: admin only; the lookup
`Sale.objects.get(uuid=…, business=…)` carries no lifecycle filter; an
already-active sale answers 200 "already active" without writing;
otherwise only `active=True` is written — no stock is touched and
`pending_approval` is not consulted. -/
def reactivateSale (role : Role) (b u : Nat) (st : DbState) :
    ReactivateResult × DbState :=
  if role != Role.admin then (.forbidden, st)
  else
    match findSale st.sales b u with
    | none => (.notFound, st)
    | some sale =>
        if sale.active then (.alreadyActive, st)
        else
          (.reactivated, { st with sales := st.sales.map fun s =>
              if s.businessId == b && s.uuid == u then { s with active := true } else s })

/-! ## The committed operations of the core, as one step type -/

/-- One request against the core, with the ambient context (actor role,
user id, business, request time) inlined. -/
inductive Op where
  | productSync (b now : Nat) (items : List PushProduct)
  | saleSync (role : Role) (userId b now : Nat) (sds : List SyncSale)
  | approve (b u now : Nat)
  | approveAll (b now : Nat)
  | reject (b u : Nat)
  | rejectAll (b : Nat)
  | destroy (role : Role) (userId b u now : Nat) (includeInactive : Bool)
  | reactivate (role : Role) (b u : Nat)
deriving Repr

/-- The store state committed once the request has answered (including
the states a failing approval leaves behind, since nothing is rolled
back). -/
def applyOp (op : Op) (st : DbState) : DbState :=
  match op with
  | .productSync b now items => (productSyncPush b now items st).2
  | .saleSync role uid b now sds => (saleSyncPush role uid b now sds st).2
  | .approve b u now => (approveSale b u now st).2
  | .approveAll b now => (approveAllPending b now st).2
  | .reject b u => (rejectSale b u st).2
  | .rejectAll b => rejectAllPending b st
  | .destroy role uid b u now inc => destroySale role uid b u now inc st
  | .reactivate role b u => (reactivateSale role b u st).2

/-- The run of a sequence of committed operations. -/
def applyOps (ops : List Op) (st : DbState) : DbState :=
  ops.foldl (fun s op => applyOp op s) st

/-- Invariant: no stored stock is negative. -/
def stocksNonneg (ps : List ProductRec) : Prop :=
  ∀ p ∈ ps, 0 ≤ p.stock

instance (ps : List ProductRec) : Decidable (stocksNonneg ps) :=
  inferInstanceAs (Decidable (∀ p ∈ ps, 0 ≤ p.stock))

/-! ## Helper lemmas about the store primitives -/

/-- `find?` over a `map` whose function preserves the predicate. -/
theorem find?_map_pres {α : Type} (f : α → α) (p : α → Bool) (l : List α)
    (hpred : ∀ a, p (f a) = p a) :
    (l.map f).find? p = (l.find? p).map f := by
  rw [List.find?_map]
  have h : p ∘ f = p := funext hpred
  rw [h]

/-- A found product carries the key it was looked up by. -/
theorem findProduct_key {ps : List ProductRec} {b lid : Nat} {p : ProductRec}
    (h : findProduct ps b lid = some p) : p.businessId = b ∧ p.localId = lid := by
  have := List.find?_some h
  simpa using this

/-- A found product is a row of the table. -/
theorem findProduct_mem {ps : List ProductRec} {b lid : Nat} {p : ProductRec}
    (h : findProduct ps b lid = some p) : p ∈ ps :=
  List.mem_of_find?_eq_some h

/-- `setStock` preserves the key fields of every row. -/
theorem setStock_pred_pres (b lid b' lid' : Nat) (v : Int) (now : Nat) :
    ∀ a : ProductRec,
      (((if a.businessId == b && a.localId == lid
          then { a with stock := v, updatedAt := now } else a) : ProductRec).businessId == b' &&
       ((if a.businessId == b && a.localId == lid
          then { a with stock := v, updatedAt := now } else a) : ProductRec).localId == lid') =
      (a.businessId == b' && a.localId == lid') := by
  intro a
  by_cases ha : (a.businessId == b && a.localId == lid) = true
  · rw [if_pos ha]
  · rw [if_neg ha]

/-- Writing one product's stock rewrites exactly the row with that key. -/
theorem findProduct_setStock_self {ps : List ProductRec} {b lid : Nat}
    {p : ProductRec} (v : Int) (now : Nat)
    (h : findProduct ps b lid = some p) :
    findProduct (setStock ps b lid v now) b lid =
      some { p with stock := v, updatedAt := now } := by
  unfold findProduct setStock
  rw [find?_map_pres _ _ _ (setStock_pred_pres b lid b lid v now)]
  unfold findProduct at h
  rw [h]
  have hk := List.find?_some h
  show some (if p.businessId == b && p.localId == lid
             then { p with stock := v, updatedAt := now } else p) =
       some { p with stock := v, updatedAt := now }
  rw [if_pos hk]

/-- Writing one product's stock leaves every other key untouched. -/
theorem findProduct_setStock_ne {ps : List ProductRec} {b lid : Nat}
    (b' lid' : Nat) (v : Int) (now : Nat)
    (h : ¬(b' = b ∧ lid' = lid)) :
    findProduct (setStock ps b lid v now) b' lid' = findProduct ps b' lid' := by
  unfold findProduct setStock
  rw [find?_map_pres _ _ _ (setStock_pred_pres b lid b' lid' v now)]
  cases hf : ps.find? (fun q => q.businessId == b' && q.localId == lid') with
  | none => rfl
  | some q =>
      have hk := List.find?_some hf
      simp only [Bool.and_eq_true, beq_iff_eq] at hk
      have hne : ¬((q.businessId == b && q.localId == lid) = true) := by
        intro hc
        simp only [Bool.and_eq_true, beq_iff_eq] at hc
        exact h ⟨hk.1.symm.trans hc.1, hk.2.symm.trans hc.2⟩
      show some (if q.businessId == b && q.localId == lid
                 then { q with stock := v, updatedAt := now } else q) = some q
      rw [if_neg hne]

/-! ## Preservation of the non-negative-stock invariant -/

theorem stocksNonneg_setStock {ps : List ProductRec} {b lid : Nat} {v : Int}
    {now : Nat} (h : stocksNonneg ps) (hv : 0 ≤ v) :
    stocksNonneg (setStock ps b lid v now) := by
  intro q hq
  rcases List.mem_map.mp hq with ⟨p, hp, hfq⟩
  by_cases hc : (p.businessId == b && p.localId == lid) = true
  · rw [if_pos hc] at hfq
    rw [← hfq]
    exact hv
  · rw [if_neg hc] at hfq
    rw [← hfq]
    exact h p hp

theorem stocksNonneg_decStockIfEnough (b now : Nat) (items : List SaleItemRec) :
    ∀ ps, stocksNonneg ps → stocksNonneg (decStockIfEnough b now items ps) := by
  induction items with
  | nil => intro ps h; exact h
  | cons it rest ih =>
      intro ps h
      unfold decStockIfEnough
      split
      next p hf =>
        split
        next hq => exact ih _ (stocksNonneg_setStock h (by omega))
        next hq => exact ih ps h
      next hf => exact ih ps h

theorem stocksNonneg_decItems (b now : Nat) (items : List SaleItemRec) :
    ∀ ps, stocksNonneg ps → stocksNonneg (decItems b now items ps).1 := by
  induction items with
  | nil => intro ps h; exact h
  | cons it rest ih =>
      intro ps h
      unfold decItems
      split
      next p hf =>
        split
        next hq => exact ih _ (stocksNonneg_setStock h (by omega))
        next hq => exact h
      next hf => exact h

theorem stocksNonneg_decSalesAll (b now : Nat) (sales : List SaleRec) :
    ∀ ps, stocksNonneg ps → stocksNonneg (decSalesAll b now sales ps).1 := by
  induction sales with
  | nil => intro ps h; exact h
  | cons s rest ih =>
      intro ps h
      unfold decSalesAll
      split
      next ps2 nm hd =>
        have h2 := stocksNonneg_decItems b now s.items ps h
        rw [hd] at h2
        exact h2
      next ps2 hd =>
        have h2 := stocksNonneg_decItems b now s.items ps h
        rw [hd] at h2
        exact ih ps2 h2

theorem stocksNonneg_incItems (b now : Nat) (items : List SaleItemRec) :
    ∀ ps, stocksNonneg ps → stocksNonneg (incItems b now items ps) := by
  induction items with
  | nil => intro ps h; exact h
  | cons it rest ih =>
      intro ps h
      unfold incItems
      split
      next p hf =>
        have hp : 0 ≤ p.stock := h p (findProduct_mem hf)
        exact ih _ (stocksNonneg_setStock h (by omega))
      next hf => exact ih ps h

theorem stocksNonneg_productSyncOne {b now : Nat} {it : PushProduct}
    {st : DbState} (h : stocksNonneg st.products) (hv : 0 ≤ it.stock) :
    stocksNonneg (productSyncOne b now it st).products := by
  unfold productSyncOne
  split
  next p hf =>
      intro q hq
      rcases List.mem_map.mp hq with ⟨r, hr, hfq⟩
      by_cases hc : (r.businessId == b && r.localId == it.localId) = true
      · rw [if_pos hc] at hfq
        rw [← hfq]
        exact hv
      · rw [if_neg hc] at hfq
        rw [← hfq]
        exact h r hr
  next hf =>
      intro q hq
      rcases List.mem_append.mp hq with hq | hq
      · exact h q hq
      · rcases List.mem_singleton.mp hq with rfl
        exact hv

theorem stocksNonneg_productSyncFold (b now : Nat) (items : List PushProduct) :
    ∀ st : DbState, items.all productPushValid = true → stocksNonneg st.products →
      stocksNonneg ((items.foldl (fun s it => productSyncOne b now it s) st).products) := by
  induction items with
  | nil => intro st _ h; exact h
  | cons it rest ih =>
      intro st hall h
      rw [List.all_cons, Bool.and_eq_true] at hall
      have hv : 0 ≤ it.stock := by
        have h1 := hall.1
        unfold productPushValid at h1
        rw [Bool.and_eq_true, decide_eq_true_eq, decide_eq_true_eq] at h1
        exact h1.2
      exact ih _ hall.2 (stocksNonneg_productSyncOne h hv)

theorem stocksNonneg_saleSyncOne {role : Role} {userId b now : Nat}
    {sd : SyncSale} {st : DbState} (h : stocksNonneg st.products) :
    stocksNonneg (saleSyncOne role userId b now sd st).products := by
  unfold saleSyncOne
  split
  next s hf => exact h
  next hf =>
      simp only
      split
      next hw => exact h
      next hw => exact stocksNonneg_decStockIfEnough b now sd.itemsData st.products h

theorem stocksNonneg_saleSyncFold (role : Role) (userId b now : Nat)
    (sds : List SyncSale) :
    ∀ st : DbState, stocksNonneg st.products →
      stocksNonneg ((sds.foldl (fun s sd => saleSyncOne role userId b now sd s) st).products) := by
  induction sds with
  | nil => intro st h; exact h
  | cons sd rest ih =>
      intro st h
      exact ih _ (stocksNonneg_saleSyncOne h)

theorem stocksNonneg_applyOp (op : Op) (st : DbState)
    (h : stocksNonneg st.products) : stocksNonneg (applyOp op st).products := by
  cases op with
  | productSync b now items =>
      simp only [applyOp]
      unfold productSyncPush
      split
      next hc =>
        rw [Bool.and_eq_true] at hc
        exact stocksNonneg_productSyncFold b now items st hc.2 h
      next hc => exact h
  | saleSync role uid b now sds =>
      simp only [applyOp]
      unfold saleSyncPush
      split
      next hc => exact stocksNonneg_saleSyncFold role uid b now sds st h
      next hc => exact h
  | approve b u now =>
      simp only [applyOp]
      unfold approveSale
      split
      next hf => exact h
      next sale hf =>
        split
        next ps nm hd =>
          have h2 := stocksNonneg_decItems b now sale.items st.products h
          rw [hd] at h2
          exact h2
        next ps hd =>
          have h2 := stocksNonneg_decItems b now sale.items st.products h
          rw [hd] at h2
          exact h2
  | approveAll b now =>
      simp only [applyOp]
      unfold approveAllPending
      split
      next ps nm hd =>
        have h2 := stocksNonneg_decSalesAll b now (pendingSalesOf st b) st.products h
        rw [hd] at h2
        exact h2
      next ps hd =>
        have h2 := stocksNonneg_decSalesAll b now (pendingSalesOf st b) st.products h
        rw [hd] at h2
        exact h2
  | reject b u =>
      simp only [applyOp]
      unfold rejectSale
      split
      next hf => exact h
      next s hf => exact h
  | rejectAll b =>
      simp only [applyOp]
      unfold rejectAllPending
      exact h
  | destroy role uid b u now inc =>
      simp only [applyOp]
      unfold destroySale
      split
      next hf => exact h
      next sale hf => exact stocksNonneg_incItems b now sale.items st.products h
  | reactivate role b u =>
      simp only [applyOp]
      unfold reactivateSale
      split
      next hr => exact h
      next hr =>
        split
        next hf => exact h
        next sale hf =>
          split
          next ha => exact h
          next ha => exact h

/-! ## Helper lemmas about sale lookups and the admin stock loop -/

/-- A found sale carries the key it was looked up by. -/
theorem findSale_key {ss : List SaleRec} {b u : Nat} {s : SaleRec}
    (h : findSale ss b u = some s) : (s.businessId == b && s.uuid == u) = true := by
  unfold findSale at h
  have h2 := List.find?_some h
  exact h2

/-- Looking a sale up through a field rewrite that keeps the key. -/
theorem findSale_map_keyfix (ss : List SaleRec) (b u : Nat) (f : SaleRec → SaleRec)
    (hkey : ∀ s, ((f s).businessId == b && (f s).uuid == u) =
      (s.businessId == b && s.uuid == u)) :
    findSale (ss.map f) b u = (findSale ss b u).map f :=
  find?_map_pres f _ ss hkey

/-- A sale appended to a table that does not hold its key is found. -/
theorem findSale_append_new (ss : List SaleRec) (b u : Nat) (s : SaleRec)
    (hnone : findSale ss b u = none) (hb : s.businessId = b) (hu : s.uuid = u) :
    findSale (ss ++ [s]) b u = some s := by
  unfold findSale at *
  rw [List.find?_append, hnone, Option.none_or]
  have hs : (s.businessId == b && s.uuid == u) = true := by
    simp [hb, hu]
  simp [List.find?, hs]

/-- Items whose product key differs are invisible to a product lookup
through the admin-path stock loop. -/
theorem decStockIfEnough_frame (b now : Nat) (items : List SaleItemRec) :
    ∀ ps lid, (∀ it ∈ items, it.productLocalId ≠ lid) →
      findProduct (decStockIfEnough b now items ps) b lid = findProduct ps b lid := by
  induction items with
  | nil => intro ps lid _; rfl
  | cons it0 rest ih =>
      intro ps lid hni
      have hne : it0.productLocalId ≠ lid := hni it0 (by simp)
      have hrest : ∀ it ∈ rest, it.productLocalId ≠ lid := by
        intro it hit
        exact hni it (by simp [hit])
      unfold decStockIfEnough
      split
      next p hf =>
        split
        next hq =>
          rw [ih _ lid hrest,
              findProduct_setStock_ne b lid _ now (fun hc => hne hc.2.symm)]
        next hq => exact ih ps lid hrest
      next hf => exact ih ps lid hrest

/-- When no product occurs in two items, the admin-path stock loop
leaves each item's product with stock decremented iff it sufficed. -/
theorem decStockIfEnough_spec (b now : Nat) (items : List SaleItemRec) :
    ∀ ps, (items.map (fun it => it.productLocalId)).Nodup →
      ∀ it ∈ items, ∀ p, findProduct ps b it.productLocalId = some p →
        (findProduct (decStockIfEnough b now items ps) b it.productLocalId).map
            (fun q => q.stock) =
          some (if (it.quantity : Int) ≤ p.stock then p.stock - it.quantity
                else p.stock) := by
  induction items with
  | nil => intro ps _ it hit; cases hit
  | cons it0 rest ih =>
      intro ps hnd it hit p hp
      rw [List.map_cons, List.nodup_cons] at hnd
      rcases List.mem_cons.mp hit with heq | hmem
      · subst heq
        have hrestne : ∀ it' ∈ rest, it'.productLocalId ≠ it.productLocalId := by
          intro it' hit' he
          exact hnd.1 (he ▸ List.mem_map_of_mem _ hit')
        unfold decStockIfEnough
        split
        next p' hp' =>
          rw [hp] at hp'
          injection hp' with hpe
          subst hpe
          split
          next hq =>
            rw [decStockIfEnough_frame b now rest _ _ hrestne,
                findProduct_setStock_self _ now hp]
            rfl
          next hq =>
            rw [decStockIfEnough_frame b now rest ps _ hrestne, hp]
            rfl
        next hp' =>
          rw [hp] at hp'
          simp at hp'
      · have hneq : it.productLocalId ≠ it0.productLocalId := by
          intro he
          exact hnd.1 (he ▸ List.mem_map_of_mem _ hmem)
        unfold decStockIfEnough
        split
        next p0 hp0 =>
          split
          next hq =>
            apply ih _ hnd.2 it hmem p
            rw [findProduct_setStock_ne b it.productLocalId _ now
                  (fun hc => hneq hc.2)]
            exact hp
          next hq => exact ih ps hnd.2 it hmem p hp
        next hp0 => exact ih ps hnd.2 it hmem p hp

/-! ## Concrete store fixtures used to exercise the handlers -/

/-- Business 1 with two active products (`P1` stock 5, `P2` stock 0)
and one active pending two-item worker sale: 2 × `P1`, then 1 × `P2`. -/
def lowStockTwoItemState : DbState :=
  { products :=
      [ { businessId := 1, localId := 1, name := "P1", description := none,
          qrCode := none, price := 1000, stock := 5, updatedAt := 0, active := true },
        { businessId := 1, localId := 2, name := "P2", description := none,
          qrCode := none, price := 1000, stock := 0, updatedAt := 0, active := true } ]
    sales :=
      [ { uuid := 7, businessId := 1, total := 3000, syncedFromDevice := true,
          active := true, createdBy := some 4, pendingApproval := true,
          items := [ { productLocalId := 1, quantity := 2, totalPrice := 2000 },
                     { productLocalId := 2, quantity := 1, totalPrice := 1000 } ] } ] }

/-- Same two products, but the two items split over two pending sales:
sale 7 (created first, so visited *last* by the newest-first bulk
snapshot) wants 1 × `P2` (empty stock); sale 8 (created second, visited
first) wants 2 × `P1`. -/
def lowStockTwoSaleState : DbState :=
  { products :=
      [ { businessId := 1, localId := 1, name := "P1", description := none,
          qrCode := none, price := 1000, stock := 5, updatedAt := 0, active := true },
        { businessId := 1, localId := 2, name := "P2", description := none,
          qrCode := none, price := 1000, stock := 0, updatedAt := 0, active := true } ]
    sales :=
      [ { uuid := 7, businessId := 1, total := 1000, syncedFromDevice := true,
          active := true, createdBy := some 4, pendingApproval := true,
          items := [ { productLocalId := 2, quantity := 1, totalPrice := 1000 } ] },
        { uuid := 8, businessId := 1, total := 2000, syncedFromDevice := true,
          active := true, createdBy := some 4, pendingApproval := true,
          items := [ { productLocalId := 1, quantity := 2, totalPrice := 2000 } ] } ] }

/-- One product whose server row says `updated_at = 500`. -/
def staleTimestampState : DbState :=
  { products :=
      [ { businessId := 1, localId := 1, name := "P1", description := none,
          qrCode := none, price := 1000, stock := 3, updatedAt := 500, active := true } ]
    sales := [] }

/-- A device push for that product carrying `updated_at = 1000`. -/
def staleTimestampPush : PushProduct :=
  { localId := 1, name := "P1", description := none, qrCode := none,
    price := 1000, stock := 3, updatedAt := 1000, active := true }

/-- One product with stock 1 and no sales yet. -/
def singleLowStockState : DbState :=
  { products :=
      [ { businessId := 1, localId := 1, name := "P1", description := none,
          qrCode := none, price := 1000, stock := 1, updatedAt := 0, active := true } ]
    sales := [] }

/-- An admin-pushed sale wanting 3 units of that stock-1 product. -/
def overdrawSyncSale : SyncSale :=
  { uuid := 7, total := 3000,
    itemsData := [ { productLocalId := 1, quantity := 3, totalPrice := 3000 } ] }

/-- One product with stock 2 and no sales yet. -/
def twoStockState : DbState :=
  { products :=
      [ { businessId := 1, localId := 1, name := "P1", description := none,
          qrCode := none, price := 1000, stock := 2, updatedAt := 0, active := true } ]
    sales := [] }

/-- An admin-pushed sale wanting 5 units of that stock-2 product. -/
def fiveOfTwoSyncSale : SyncSale :=
  { uuid := 9, total := 5000,
    itemsData := [ { productLocalId := 1, quantity := 5, totalPrice := 5000 } ] }

/-- A pushed sale whose `total` (100.00) is twice its items' sum (50.00). -/
def mismatchedSyncSale : SyncSale :=
  { uuid := 11, total := 10000,
    itemsData := [ { productLocalId := 1, quantity := 2, totalPrice := 5000 } ] }

/-- A plentiful product so the mismatched sale's item validates. -/
def plentifulState : DbState :=
  { products :=
      [ { businessId := 1, localId := 1, name := "P1", description := none,
          qrCode := none, price := 2500, stock := 10, updatedAt := 0, active := true } ]
    sales := [] }

/-! ## The claims -/

/-- **C1** (code bug): approving the pending two-item sale fails on the
second item's empty stock, yet the first item's decrement (5 → 3) is
already persisted — `ApproveSaleView.post` saves each product as it
iterates and runs in no transaction, so the failing approval does *not*
leave every product's stock unchanged. -/
theorem approveSale_fails_but_mutates_stock :
    (approveSale 1 7 9 lowStockTwoItemState).1 = ApproveResult.insufficientStock "P2" ∧
    stockOf lowStockTwoItemState 1 1 = some 5 ∧
    stockOf (approveSale 1 7 9 lowStockTwoItemState).2 1 1 = some 3 := by decide

/-- **C4** (code bug): the bulk approval iterates the pending snapshot
newest-first (`Sale.Meta.ordering = ['-created_at']`), decrements and
saves 2 × `P1` (5 → 3) for the newer sale 8, then fails on the older
sale 7's empty `P2` stock; both sales stay pending, yet sale 8's
decrement is already persisted — the batch is not all-or-nothing on
stock. -/
theorem approveAllPending_fails_but_mutates_stock :
    (approveAllPending 1 9 lowStockTwoSaleState).1 = ApproveResult.insufficientStock "P2" ∧
    stockOf lowStockTwoSaleState 1 1 = some 5 ∧
    stockOf (approveAllPending 1 9 lowStockTwoSaleState).2 1 1 = some 3 ∧
    ((approveAllPending 1 9 lowStockTwoSaleState).2.sales.all
        fun s => s.pendingApproval) = true := by decide

/-- **C6** (code bug): the product sync upsert succeeds, but the stored
`updated_at` is the server's save time (2000), not the pushed value
(1000) — `Product.save` overwrites `updated_at` with `timezone.now()`
(and the field is `auto_now=True`), defeating the last-write-wins
timestamp the serializer passes in `defaults`. -/
theorem productSync_stores_server_time_not_pushed_updatedAt :
    (productSyncPush 1 2000 [staleTimestampPush] staleTimestampState).1 = true ∧
    staleTimestampPush.updatedAt = 1000 ∧
    updatedAtOf (productSyncPush 1 2000 [staleTimestampPush] staleTimestampState).2 1 1 =
      some 2000 := by decide

/-- **C8** (code bug): an admin sync push whose item wants 3 units of a
stock-1 product reports success, creates the sale already approved
(`pending_approval=false`), and silently skips the decrement (stock
stays 1) — no insufficient-stock error reaches the caller, contradicting
the Stock Ledger contract. -/
theorem saleSync_admin_skips_insufficient_decrement_silently :
    (saleSyncPush Role.admin 4 1 9 [overdrawSyncSale] singleLowStockState).1 = true ∧
    stockOf singleLowStockState 1 1 = some 1 ∧
    stockOf (saleSyncPush Role.admin 4 1 9 [overdrawSyncSale] singleLowStockState).2 1 1 =
      some 1 ∧
    (findSale (saleSyncPush Role.admin 4 1 9 [overdrawSyncSale] singleLowStockState).2.sales
        1 7).map (fun s => s.pendingApproval) = some false := by decide

/-- **C2** (counterexample): an admin push of 5 units against stock 2
leaves the stock at 2 — it is *not* decremented by the item's quantity
as the claim states (that would give −3); the admin-path decrement is
conditional on sufficient stock. -/
theorem saleSync_admin_short_stock_not_decremented :
    (saleSyncPush Role.admin 4 1 9 [fiveOfTwoSyncSale] twoStockState).1 = true ∧
    stockOf (saleSyncPush Role.admin 4 1 9 [fiveOfTwoSyncSale] twoStockState).2 1 1 =
      some 2 ∧
    ¬ stockOf (saleSyncPush Role.admin 4 1 9 [fiveOfTwoSyncSale] twoStockState).2 1 1 =
        some (2 - 5) := by decide

/-- **C5** (counterexample): a device sync push whose record's total
(100.00) differs from its items' sum (50.00) by far more than 0.01 is
accepted and the sale committed — the sync path never checks the total
against the items. -/
theorem saleSync_accepts_total_mismatch :
    1 < |itemsTotalSum mismatchedSyncSale.itemsData - mismatchedSyncSale.total| ∧
    (saleSyncPush Role.worker 4 1 9 [mismatchedSyncSale] plentifulState).1 = true ∧
    (findSale (saleSyncPush Role.worker 4 1 9 [mismatchedSyncSale] plentifulState).2.sales
        1 11).isSome = true := by decide

/-- The update branch of `SaleSyncSerializer.create`, as one equation. -/
theorem saleSyncOne_update_eq (role : Role) (userId b now : Nat) (sd : SyncSale)
    (st : DbState) (s0 : SaleRec) (hex : findSale st.sales b sd.uuid = some s0) :
    saleSyncOne role userId b now sd st =
      { st with sales := st.sales.map fun s =>
          if s.businessId == b && s.uuid == sd.uuid then
            { s with
                total := sd.total
                syncedFromDevice := true
                active := true
                createdBy := some userId
                pendingApproval := (role == Role.worker) }
          else s } := by
  unfold saleSyncOne
  split
  next s1 hf => rfl
  next hf => rw [hex] at hf; simp at hf

/-- The create branch of `SaleSyncSerializer.create`, as one equation. -/
theorem saleSyncOne_create_eq (role : Role) (userId b now : Nat) (sd : SyncSale)
    (st : DbState) (hfresh : findSale st.sales b sd.uuid = none) :
    saleSyncOne role userId b now sd st =
      { st with
          products :=
            if role == Role.worker then st.products
            else decStockIfEnough b now sd.itemsData st.products
          sales := st.sales ++
            [{ uuid := sd.uuid
               businessId := b
               total := sd.total
               syncedFromDevice := true
               active := true
               createdBy := some userId
               pendingApproval := (role == Role.worker)
               items := sd.itemsData }] } := by
  unfold saleSyncOne
  split
  next s1 hf => rw [hfresh] at hf; simp at hf
  next hf => rfl

/-- The key-preservation side condition of the update branch's map. -/
theorem saleSyncUpdate_keyfix (role : Role) (userId b : Nat) (sd : SyncSale) :
    ∀ s : SaleRec,
      (((if s.businessId == b && s.uuid == sd.uuid then
          { s with
              total := sd.total
              syncedFromDevice := true
              active := true
              createdBy := some userId
              pendingApproval := (role == Role.worker) }
        else s) : SaleRec).businessId == b &&
       ((if s.businessId == b && s.uuid == sd.uuid then
          { s with
              total := sd.total
              syncedFromDevice := true
              active := true
              createdBy := some userId
              pendingApproval := (role == Role.worker) }
        else s) : SaleRec).uuid == sd.uuid) =
      (s.businessId == b && s.uuid == sd.uuid) := by
  intro s
  by_cases hc : (s.businessId == b && s.uuid == sd.uuid) = true
  · rw [if_pos hc]
  · rw [if_neg hc]

/-- **C3**: replaying a sale sync record whose uuid already exists for
the business changes no product stock, creates no sale row, and leaves
the existing sale's line items untouched — the create-time side effects
(item creation, admin stock decrement) are guarded by the upsert's
`created` flag and run at most once per `(business, uuid)`. -/
theorem saleSync_replay_is_idempotent (role : Role) (userId b now : Nat)
    (sd : SyncSale) (st : DbState) (s0 : SaleRec)
    (hex : findSale st.sales b sd.uuid = some s0) :
    (saleSyncOne role userId b now sd st).products = st.products ∧
    (saleSyncOne role userId b now sd st).sales.length = st.sales.length ∧
    ∀ s, findSale (saleSyncOne role userId b now sd st).sales b sd.uuid = some s →
      s.items = s0.items := by
  rw [saleSyncOne_update_eq role userId b now sd st s0 hex]
  refine ⟨rfl, by simp, ?_⟩
  intro s hs
  rw [findSale_map_keyfix _ _ _ _ (saleSyncUpdate_keyfix role userId b sd), hex] at hs
  simp only [Option.map_some'] at hs
  injection hs with hse
  rw [← hse]
  rw [if_pos (findSale_key hex)]

/-- The sync record that replays `lowStockTwoItemState`'s sale 7. -/
def replayOfSale7 : SyncSale :=
  { uuid := 7, total := 3000,
    itemsData := [ { productLocalId := 1, quantity := 2, totalPrice := 2000 },
                   { productLocalId := 2, quantity := 1, totalPrice := 1000 } ] }

/-- The stored sale 7 of `lowStockTwoItemState`. -/
def storedSale7 : SaleRec :=
  { uuid := 7, businessId := 1, total := 3000, syncedFromDevice := true,
    active := true, createdBy := some 4, pendingApproval := true,
    items := [ { productLocalId := 1, quantity := 2, totalPrice := 2000 },
               { productLocalId := 2, quantity := 1, totalPrice := 1000 } ] }

/-- Witness for C3: a concrete worker replay of an already-synced sale
leaves products, sale count and items unchanged. -/
theorem saleSync_replay_is_idempotent_witness :
    findSale lowStockTwoItemState.sales 1 replayOfSale7.uuid = some storedSale7 ∧
    ((saleSyncOne Role.worker 4 1 9 replayOfSale7 lowStockTwoItemState).products =
        lowStockTwoItemState.products ∧
      (saleSyncOne Role.worker 4 1 9 replayOfSale7 lowStockTwoItemState).sales.length =
        lowStockTwoItemState.sales.length ∧
      ∀ s, findSale (saleSyncOne Role.worker 4 1 9 replayOfSale7
          lowStockTwoItemState).sales 1 replayOfSale7.uuid = some s →
        s.items = storedSale7.items) :=
  ⟨by decide,
   saleSync_replay_is_idempotent Role.worker 4 1 9 replayOfSale7
     lowStockTwoItemState storedSale7 (by decide)⟩

/-- **C9**: when the pushed uuid already exists for the business, the
update branch still overwrites `total`, `created_by`,
`synced_from_device`, `active` and `pending_approval` from the current
request — in particular a worker replay sets `pending_approval` to true
again even on a sale an admin had approved. -/
theorem saleSync_update_overwrites_fields (role : Role) (userId b now : Nat)
    (sd : SyncSale) (st : DbState) (s0 : SaleRec)
    (hex : findSale st.sales b sd.uuid = some s0) :
    findSale (saleSyncOne role userId b now sd st).sales b sd.uuid =
      some { s0 with
               total := sd.total
               syncedFromDevice := true
               active := true
               createdBy := some userId
               pendingApproval := (role == Role.worker) } := by
  rw [saleSyncOne_update_eq role userId b now sd st s0 hex]
  show findSale (st.sales.map _) b sd.uuid = _
  rw [findSale_map_keyfix _ _ _ _ (saleSyncUpdate_keyfix role userId b sd), hex]
  simp only [Option.map_some']
  rw [if_pos (findSale_key hex)]

/-- A store holding sale 7 already approved (`pending_approval=false`)
by an admin. -/
def approvedSaleState : DbState :=
  { products :=
      [ { businessId := 1, localId := 1, name := "P1", description := none,
          qrCode := none, price := 1000, stock := 3, updatedAt := 0, active := true } ]
    sales :=
      [ { uuid := 7, businessId := 1, total := 2000, syncedFromDevice := true,
          active := true, createdBy := some 2, pendingApproval := false,
          items := [ { productLocalId := 1, quantity := 2, totalPrice := 2000 } ] } ] }

/-- The stored (approved) sale 7 of `approvedSaleState`. -/
def approvedSaleRec : SaleRec :=
  { uuid := 7, businessId := 1, total := 2000, syncedFromDevice := true,
    active := true, createdBy := some 2, pendingApproval := false,
    items := [ { productLocalId := 1, quantity := 2, totalPrice := 2000 } ] }

/-- The worker's replay of that approved sale. -/
def replaySyncSale : SyncSale :=
  { uuid := 7, total := 2000,
    itemsData := [ { productLocalId := 1, quantity := 2, totalPrice := 2000 } ] }

/-- Witness for C9: a worker replays the admin-approved sale `uuid 7`
(`pending_approval=false`); afterwards the stored sale is pending again. -/
theorem saleSync_update_overwrites_fields_witness :
    findSale approvedSaleState.sales 1 replaySyncSale.uuid = some approvedSaleRec ∧
    findSale (saleSyncOne Role.worker 4 1 9 replaySyncSale approvedSaleState).sales
        1 replaySyncSale.uuid =
      some { approvedSaleRec with
               total := replaySyncSale.total
               syncedFromDevice := true
               active := true
               createdBy := some 4
               pendingApproval := (Role.worker == Role.worker) } :=
  ⟨by decide,
   saleSync_update_overwrites_fields Role.worker 4 1 9 replaySyncSale
     approvedSaleState approvedSaleRec (by decide)⟩

/-- **C2** (amended): for a fresh uuid whose items reference pairwise
distinct products, a worker push creates the sale with
`pending_approval=true` and no stock change; an admin push creates it
with `pending_approval=false` and decrements each item's product by its
quantity *when the stock suffices*, leaving that product's stock
unchanged otherwise. -/
theorem saleSync_role_gates_pending_and_stock (role : Role) (userId b now : Nat)
    (sd : SyncSale) (st : DbState)
    (hfresh : findSale st.sales b sd.uuid = none)
    (hnd : (sd.itemsData.map (fun it => it.productLocalId)).Nodup) :
    ((findSale (saleSyncOne role userId b now sd st).sales b sd.uuid).map
        (fun s => s.pendingApproval) = some (role == Role.worker)) ∧
    (role = Role.worker →
      (saleSyncOne role userId b now sd st).products = st.products) ∧
    (role = Role.admin → ∀ it ∈ sd.itemsData, ∀ p,
        findProduct st.products b it.productLocalId = some p →
        stockOf (saleSyncOne role userId b now sd st) b it.productLocalId =
          some (if (it.quantity : Int) ≤ p.stock then p.stock - it.quantity
                else p.stock)) := by
  rw [saleSyncOne_create_eq role userId b now sd st hfresh]
  refine ⟨?_, ?_, ?_⟩
  · show (findSale (st.sales ++ _) b sd.uuid).map _ = _
    rw [findSale_append_new _ _ _ _ hfresh rfl rfl]
    rfl
  · intro hrole
    subst hrole
    rfl
  · intro hrole it hit p hp
    subst hrole
    unfold stockOf
    show (findProduct (decStockIfEnough b now sd.itemsData st.products)
        b it.productLocalId).map _ = _
    exact decStockIfEnough_spec b now sd.itemsData st.products hnd it hit p hp

/-- A fresh store with the two products `P1` (stock 5) and `P2`
(stock 0) and no sales yet. -/
def freshTwoProductState : DbState :=
  { products :=
      [ { businessId := 1, localId := 1, name := "P1", description := none,
          qrCode := none, price := 1000, stock := 5, updatedAt := 0, active := true },
        { businessId := 1, localId := 2, name := "P2", description := none,
          qrCode := none, price := 1000, stock := 0, updatedAt := 0, active := true } ]
    sales := [] }

/-- A two-item push: 2 × `P1` (sufficient), 1 × `P2` (insufficient). -/
def twoItemSyncSale : SyncSale :=
  { uuid := 21, total := 3000,
    itemsData := [ { productLocalId := 1, quantity := 2, totalPrice := 2000 },
                   { productLocalId := 2, quantity := 1, totalPrice := 1000 } ] }

/-- Witness for C2: the admin push of `twoItemSyncSale` into the fresh
store, with both hypotheses discharged concretely. -/
theorem saleSync_role_gates_pending_and_stock_witness :
    findSale freshTwoProductState.sales 1 twoItemSyncSale.uuid = none ∧
    (twoItemSyncSale.itemsData.map (fun it => it.productLocalId)).Nodup ∧
    (((findSale (saleSyncOne Role.admin 4 1 9 twoItemSyncSale
          freshTwoProductState).sales 1 twoItemSyncSale.uuid).map
        (fun s => s.pendingApproval) = some (Role.admin == Role.worker)) ∧
      (Role.admin = Role.worker →
        (saleSyncOne Role.admin 4 1 9 twoItemSyncSale freshTwoProductState).products =
          freshTwoProductState.products) ∧
      (Role.admin = Role.admin → ∀ it ∈ twoItemSyncSale.itemsData, ∀ p,
          findProduct freshTwoProductState.products 1 it.productLocalId = some p →
          stockOf (saleSyncOne Role.admin 4 1 9 twoItemSyncSale freshTwoProductState)
              1 it.productLocalId =
            some (if (it.quantity : Int) ≤ p.stock then p.stock - it.quantity
                  else p.stock))) :=
  ⟨by decide, by decide,
   saleSync_role_gates_pending_and_stock Role.admin 4 1 9 twoItemSyncSale
     freshTwoProductState (by decide) (by decide)⟩

/-- **C5** (amended): the 0.01-tolerance total check exists only on the
direct creation path — `SaleSerializer.validate` with non-empty
`items_data` accepts exactly when |Σ item totals − total| ≤ 0.01 — while
a device sync push record is never checked against its items' sum: a
record that passes the sync validations is accepted however large the
mismatch. -/
theorem totalCheck_only_on_direct_creation (total : Int) (items : List SaleItemRec)
    (hne : items ≠ []) (role : Role) (userId b now : Nat) (sd : SyncSale)
    (st : DbState) (hval : saleSyncRecordValid st b sd = true)
    (hmis : 1 < |itemsTotalSum sd.itemsData - sd.total|) :
    (saleValidateTotal total items = true ↔ |itemsTotalSum items - total| ≤ 1) ∧
    (saleSyncPush role userId b now [sd] st).1 = true := by
  constructor
  · cases items with
    | nil => cases hne rfl
    | cons a l =>
        show (if 1 < |itemsTotalSum (a :: l) - total| then false else true) = true ↔ _
        by_cases hlt : 1 < |itemsTotalSum (a :: l) - total|
        · rw [if_pos hlt]
          constructor
          · intro hf
            simp at hf
          · intro hle
            exact absurd hlt (not_lt.mpr hle)
        · rw [if_neg hlt]
          constructor
          · intro _
            exact not_lt.mp hlt
          · intro _
            rfl
  · unfold saleSyncPush
    have hc : (!([sd].isEmpty) && [sd].all (saleSyncRecordValid st b)) = true := by
      simp [hval]
    rw [if_pos hc]

/-- A one-cent-off direct-creation item list (sums to 99.99). -/
def offByOneCentItems : List SaleItemRec :=
  [ { productLocalId := 1, quantity := 2, totalPrice := 9999 } ]

/-- Witness for C5: direct creation tolerates the one-cent mismatch
(100.00 vs 99.99) while the sync path accepts the 50.00 mismatch of
`mismatchedSyncSale` outright. -/
theorem totalCheck_only_on_direct_creation_witness :
    offByOneCentItems ≠ [] ∧
    saleSyncRecordValid plentifulState 1 mismatchedSyncSale = true ∧
    1 < |itemsTotalSum mismatchedSyncSale.itemsData - mismatchedSyncSale.total| ∧
    ((saleValidateTotal 10000 offByOneCentItems = true ↔
        |itemsTotalSum offByOneCentItems - 10000| ≤ 1) ∧
      (saleSyncPush Role.worker 4 1 9 [mismatchedSyncSale] plentifulState).1 = true) :=
  ⟨by decide, by decide, by decide,
   totalCheck_only_on_direct_creation 10000 offByOneCentItems (by decide)
     Role.worker 4 1 9 mismatchedSyncSale plentifulState (by decide) (by decide)⟩

/-- **C7**: across every sequence of committed core operations (product
sync, sale sync, approve, approve-all, reject, reject-all, destroy,
reactivate), all product stocks stay non-negative if they started so:
each decrement in the source is guarded by its own sufficiency check,
restores only add, and product pushes validate `stock ≥ 0`. -/
theorem stock_nonneg_invariant (ops : List Op) (st : DbState)
    (h : stocksNonneg st.products) :
    stocksNonneg ((applyOps ops st).products) := by
  induction ops generalizing st with
  | nil => exact h
  | cons op rest ih => exact ih (applyOp op st) (stocksNonneg_applyOp op st h)

/-- A workout for the invariant: approve (partially failing), bulk
approve, reject, reactivate, destroy with restore, and a product push. -/
def invariantDemoOps : List Op :=
  [ Op.approve 1 7 9,
    Op.approveAll 1 10,
    Op.reject 1 7,
    Op.reactivate Role.admin 1 7,
    Op.destroy Role.admin 4 1 7 11 true,
    Op.productSync 1 12 [staleTimestampPush] ]

/-- Witness for C7: the demo sequence applied to the low-stock store
keeps every stock non-negative. -/
theorem stock_nonneg_invariant_witness :
    stocksNonneg lowStockTwoItemState.products ∧
    stocksNonneg ((applyOps invariantDemoOps lowStockTwoItemState).products) :=
  ⟨by decide, stock_nonneg_invariant invariantDemoOps lowStockTwoItemState (by decide)⟩

/-- **C10**: an admin reactivation of any sale of the business found by
uuid: if it is inactive, only `active` is flipped to true — products are
untouched and `pending_approval` is not consulted, so a rejected worker
sale returns to the active pending set; if it is already active, the
call is a no-op answering "already active". -/
theorem reactivateSale_restores_active_without_stock (b u : Nat) (st : DbState)
    (s0 : SaleRec) (hfind : findSale st.sales b u = some s0) :
    (reactivateSale Role.admin b u st).2.products = st.products ∧
    (s0.active = true →
      reactivateSale Role.admin b u st = (ReactivateResult.alreadyActive, st)) ∧
    (s0.active = false →
      (reactivateSale Role.admin b u st).1 = ReactivateResult.reactivated ∧
      findSale (reactivateSale Role.admin b u st).2.sales b u =
        some { s0 with active := true }) := by
  have key : reactivateSale Role.admin b u st =
      if s0.active then (ReactivateResult.alreadyActive, st)
      else (ReactivateResult.reactivated, { st with sales := st.sales.map fun s =>
          if s.businessId == b && s.uuid == u then { s with active := true } else s }) := by
    unfold reactivateSale
    rw [if_neg (by decide : ¬((Role.admin != Role.admin) = true))]
    split
    next hf =>
      rw [hfind] at hf
      simp at hf
    next sale hf =>
      rw [hfind] at hf
      injection hf with he
      subst he
      rfl
  refine ⟨?_, ?_, ?_⟩
  · rw [key]
    by_cases ha : s0.active
    · rw [if_pos ha]
    · rw [if_neg ha]
  · intro ha
    rw [key, if_pos ha]
  · intro ha
    have hna : ¬(s0.active = true) := by simp [ha]
    rw [key, if_neg hna]
    refine ⟨rfl, ?_⟩
    have hk : ∀ s : SaleRec,
        (((if s.businessId == b && s.uuid == u then { s with active := true }
           else s) : SaleRec).businessId == b &&
         ((if s.businessId == b && s.uuid == u then { s with active := true }
           else s) : SaleRec).uuid == u) =
        (s.businessId == b && s.uuid == u) := by
      intro s
      by_cases hc : (s.businessId == b && s.uuid == u) = true
      · rw [if_pos hc]
      · rw [if_neg hc]
    show findSale (st.sales.map _) b u = _
    rw [findSale_map_keyfix _ _ _ _ hk, hfind]
    simp only [Option.map_some']
    rw [if_pos (findSale_key hfind)]

/-- A rejected worker sale: still pending, soft-deleted. -/
def rejectedSaleState : DbState :=
  { products :=
      [ { businessId := 1, localId := 1, name := "P1", description := none,
          qrCode := none, price := 1000, stock := 5, updatedAt := 0, active := true } ]
    sales :=
      [ { uuid := 7, businessId := 1, total := 2000, syncedFromDevice := true,
          active := false, createdBy := some 4, pendingApproval := true,
          items := [ { productLocalId := 1, quantity := 2, totalPrice := 2000 } ] } ] }

/-- The stored rejected sale of `rejectedSaleState`. -/
def rejectedSaleRec : SaleRec :=
  { uuid := 7, businessId := 1, total := 2000, syncedFromDevice := true,
    active := false, createdBy := some 4, pendingApproval := true,
    items := [ { productLocalId := 1, quantity := 2, totalPrice := 2000 } ] }

/-- Witness for C10: reactivating the rejected (never approved) worker
sale flips it to active with stock untouched. -/
theorem reactivateSale_restores_active_without_stock_witness :
    findSale rejectedSaleState.sales 1 7 = some rejectedSaleRec ∧
    ((reactivateSale Role.admin 1 7 rejectedSaleState).2.products =
        rejectedSaleState.products ∧
      (rejectedSaleRec.active = true →
        reactivateSale Role.admin 1 7 rejectedSaleState =
          (ReactivateResult.alreadyActive, rejectedSaleState)) ∧
      (rejectedSaleRec.active = false →
        (reactivateSale Role.admin 1 7 rejectedSaleState).1 =
          ReactivateResult.reactivated ∧
        findSale (reactivateSale Role.admin 1 7 rejectedSaleState).2.sales 1 7 =
          some { rejectedSaleRec with active := true })) :=
  ⟨by decide,
   reactivateSale_restores_active_without_stock 1 7 rejectedSaleState
     rejectedSaleRec (by decide)⟩
